import Mathlib

/-!
Shallow embedding of the ovn-kubernetes unidling controller
(go-controller/pkg/ovn/controller/unidling/unidle.go) and proofs about it.

The Go source holds two cooperating pieces: the `unidlingController`
(VIP registry plus the empty-LB-backends event bridge) and the
`idleStatusController` (the idle-status state machine driven by service
add/update notifications and a grace-period delay queue).  Pure data and
decision logic are translated directly; interactions with external
collaborators (the kube annotation writer, the service lister, the OVN
southbound store's delete transaction) are modelled as explicit inputs
recording whether the external call succeeds, and the side effects the
code performs (annotation writes, delay-queue additions, recorded events)
are returned explicitly.
-/

namespace Unidling

/-- k8s.io/api/core/v1 Protocol values used by the controller
(`kapi.ProtocolTCP`, `kapi.ProtocolUDP`, `kapi.ProtocolSCTP`). -/
inductive Protocol where
  | TCP
  | UDP
  | SCTP
deriving DecidableEq, Repr

/-- k8s.io/apimachinery types.NamespacedName. -/
structure NamespacedName where
  ns : String
  name : String
deriving DecidableEq, Repr

/-- A Go `map[string]string` value, modelled as an association list with
at most one entry per key (Go map semantics are enforced by `setAnn`,
which overwrites in place). -/
abbrev AnnMap := List (String × String)

/-- Go map read `m[k]`: `some v` when the key is present (the `v, ok` form
with `ok = true`), `none` when absent. -/
def lookupAnn : AnnMap → String → Option String
  | [], _ => none
  | p :: rest, k => if p.1 == k then some p.2 else lookupAnn rest k

/-- Go map write `m[k] = v`: overwrite the entry when the key is present,
append it otherwise. -/
def setAnn : AnnMap → String → String → AnnMap
  | [], k, v => [(k, v)]
  | p :: rest, k, v => if p.1 == k then (k, v) :: rest else p :: setAnn rest k v

/-- Constant `StatusAnnotation = "k8s.ovn.org/idle-status"` from the source. -/
def statusAnnotationKey : String := "k8s.ovn.org/idle-status"

/-- Constant `StatusIdle` from the source. -/
def StatusIdle : String := "Idle"

/-- Constant `StatusGracePeriod` from the source. -/
def StatusGracePeriod : String := "GracePeriod"

/-- Constant `StatusNotIdle` from the source. -/
def StatusNotIdle : String := "NotIdle"

/-- Constant `OvnServiceIdledSuffix = "idled-at"` from the source. -/
def OvnServiceIdledSuffix : String := "idled-at"

/-- The slice of a `kapi.Service` the controller reads.  `annotations` is
`none` when the Go `Annotations` map is nil, `some m` otherwise.  The
booleans record the results of `util.ServiceTypeHasClusterIP` and
`util.IsClusterIPSet`, and `clusterIPs` the result of
`util.GetClusterIPs` (these utils read service spec fields; they are not
part of the translated file, so their outcome is carried as data on the
service value). -/
structure Service where
  ns : String
  name : String
  typeHasClusterIP : Bool
  clusterIPSet : Bool
  clusterIPs : List String
  ports : List (Int × Protocol)
  annotations : Option AnnMap
deriving DecidableEq, Repr

/-- Go `strings.HasSuffix(s, suffix)`, modelled on the character lists of
the two strings. -/
def strEndsWith (s suffix : String) : Bool :=
  suffix.data.isSuffixOf s.data

/-- The loop body of `hasIdleAt`: some annotation key ends with the
idled-at suffix. -/
def annHasIdleAt (anns : AnnMap) : Bool :=
  anns.any (fun p => strEndsWith p.1 OvnServiceIdledSuffix)

/-- `hasIdleAt(svc *kapi.Service) bool` from the source: nil pointer or nil
map give false; otherwise true iff some annotation key ends with the
idled-at suffix. -/
def hasIdleAt (svc : Option Service) : Bool :=
  match svc with
  | none => false
  | some s =>
    match s.annotations with
    | none => false
    | some anns => annHasIdleAt anns

/-- `GetIdleStatus(svc *kapi.Service) Status` from the source: `NotIdle`
when the annotation map is nil or the status annotation is absent,
otherwise the stored string cast to `Status` unchanged. -/
def GetIdleStatus (svc : Service) : String :=
  match svc.annotations with
  | none => StatusNotIdle
  | some anns =>
    match lookupAnn anns statusAnnotationKey with
    | none => StatusNotIdle
    | some status => status

/-- `cache.MetaNamespaceKeyFunc`: `namespace + "/" + name`, or just the
name when the namespace is empty. -/
def metaNamespaceKey (svc : Service) : String :=
  if svc.ns = "" then svc.name else svc.ns ++ "/" ++ svc.name

/-- The observable outcome of one state-machine step: the stored service
after any annotation write, the keys appended to the grace-period delay
queue during the step, the annotation writes performed (key, value), and
the error returned (swallowed by `utilruntime.HandleError` at the call
sites, but recorded here). -/
structure StepOut where
  svc : Service
  queued : List String
  writes : List (String × String)
  err : Option String
deriving DecidableEq, Repr

/-- Apply `kube.SetAnnotationsOnService(ns, name, {k: v})` to the stored
service: sets the annotation, creating the map when it is nil. -/
def applyWrite (svc : Service) (k v : String) : Service :=
  { svc with annotations := some (setAnn (svc.annotations.getD []) k v) }

/-- `markServiceAsGracePeriod` from the source: write `GracePeriod`
through kube; on write error return the error (no queue addition);
otherwise add the service key to the grace-period delay queue.
`writeOk` is the outcome of the external `SetAnnotationsOnService` call. -/
def markServiceAsGracePeriod (writeOk : Bool) (svc : Service) : StepOut :=
  if writeOk then
    { svc := applyWrite svc statusAnnotationKey StatusGracePeriod
      queued := [metaNamespaceKey svc]
      writes := [(statusAnnotationKey, StatusGracePeriod)]
      err := none }
  else
    { svc := svc, queued := [], writes := [], err := some "can't set service idle status" }

/-- `markServiceAsIdleIfNeeded` from the source: skip when the annotation
map is non-nil and already stores `Idle`; otherwise write `Idle`. -/
def markServiceAsIdleIfNeeded (writeOk : Bool) (svc : Service) : StepOut :=
  let skip : Bool :=
    match svc.annotations with
    | none => false
    | some anns =>
      match lookupAnn anns statusAnnotationKey with
      | none => false
      | some status => status == StatusIdle
  if skip then
    { svc := svc, queued := [], writes := [], err := none }
  else if writeOk then
    { svc := applyWrite svc statusAnnotationKey StatusIdle
      queued := []
      writes := [(statusAnnotationKey, StatusIdle)]
      err := none }
  else
    { svc := svc, queued := [], writes := [], err := some "can't set service idle status" }

/-- `markServiceAsNotIdle` from the source: return nil (no write) when the
annotation map is nil, when the status annotation is absent or already
`NotIdle`, or when it is `Idle` (re-idled during the grace period);
otherwise write `NotIdle`. -/
def markServiceAsNotIdle (writeOk : Bool) (svc : Service) : StepOut :=
  match svc.annotations with
  | none => { svc := svc, queued := [], writes := [], err := none }
  | some anns =>
    match lookupAnn anns statusAnnotationKey with
    | none => { svc := svc, queued := [], writes := [], err := none }
    | some status =>
      if status == StatusNotIdle then
        { svc := svc, queued := [], writes := [], err := none }
      else if status == StatusIdle then
        { svc := svc, queued := [], writes := [], err := none }
      else if writeOk then
        { svc := applyWrite svc statusAnnotationKey StatusNotIdle
          queued := []
          writes := [(statusAnnotationKey, StatusNotIdle)]
          err := none }
      else
        { svc := svc, queued := [], writes := [], err := some "can't set service idle status" }

/-- `idleStatusController.onServiceUpdate` from the source: when the
idled-at marker goes true to false, mark the new service as in grace
period; else when the new service carries the marker, mark it idle if
needed; else do nothing.  Errors from the mark calls are passed to
`utilruntime.HandleError` (recorded in `err`). -/
def onServiceUpdate (writeOk : Bool) (old new : Service) : StepOut :=
  if hasIdleAt (some old) && !(hasIdleAt (some new)) then
    markServiceAsGracePeriod writeOk new
  else if hasIdleAt (some new) then
    markServiceAsIdleIfNeeded writeOk new
  else
    { svc := new, queued := [], writes := [], err := none }

/-- The body of `processNextWorkItem` after a key is drawn from the
grace-period queue: the service lister lookup is modelled by `lookup`
(`none` = apierrors.IsNotFound, dropped silently; `some svc` = the
current service).  Returns the stored service afterwards (none when the
service was deleted), the annotation writes performed, and the error. -/
def processGraceKey (writeOk : Bool) (lookup : Option Service) :
    Option Service × List (String × String) × Option String :=
  match lookup with
  | none => (none, [], none)
  | some svc =>
    let r := markServiceAsNotIdle writeOk svc
    (some r.svc, r.writes, r.err)

/-- `ServiceVIPKey` from the source: load-balancer VIP in the form
"ip:port" together with the protocol. -/
structure ServiceVIPKey where
  vip : String
  protocol : Protocol
deriving DecidableEq, Repr

/-- The `serviceVIPToName` map of the `unidlingController`, modelled as a
lookup function (a Go map with pointwise access).  The mutex around each
operation is the concurrency mechanism; each single operation is atomic,
which is exactly what a sequential function model captures. -/
abbrev Registry := ServiceVIPKey → Option NamespacedName

/-- `AddServiceVIPToName`: insert or overwrite one entry. -/
def AddServiceVIPToName (reg : Registry) (vip : String) (protocol : Protocol)
    (ns name : String) : Registry :=
  fun k => if k = ⟨vip, protocol⟩ then some ⟨ns, name⟩ else reg k

/-- `GetServiceVIPToName`: read-only lookup (the `(value, ok)` pair is the
option). -/
def GetServiceVIPToName (reg : Registry) (vip : String) (protocol : Protocol) :
    Option NamespacedName :=
  reg ⟨vip, protocol⟩

/-- `DeleteServiceVIPToName`: remove the entry if present, no-op otherwise. -/
def DeleteServiceVIPToName (reg : Registry) (vip : String) (protocol : Protocol) :
    Registry :=
  fun k => if k = ⟨vip, protocol⟩ then none else reg k

/-- `util.JoinHostPortInt32(ip, port)`.
Modelled from the spec: the util package is outside the translated file;
§3 says a VIPKey is "built by concatenating a workload's cluster-assigned
address and a declared port". -/
def joinHostPortInt32 (host : String) (port : Int) : String :=
  host ++ ":" ++ toString port

/-- The (vip, protocol) pairs a service contributes to the registry: the
registry-facing loop body of `onServiceAdd` / `onServiceDelete` iterates
the cluster IPs and the service ports when the service type has a cluster
IP and the cluster IP is set. -/
def derivedKeys (svc : Service) : List ServiceVIPKey :=
  if svc.typeHasClusterIP && svc.clusterIPSet then
    svc.clusterIPs.flatMap (fun ip =>
      svc.ports.map (fun p => ⟨joinHostPortInt32 ip p.1, p.2⟩))
  else []

/-- The registry effect of `unidlingController.onServiceAdd`: add every
derived (vip, protocol) key for the service. -/
def onServiceAddRegistry (reg : Registry) (svc : Service) : Registry :=
  (derivedKeys svc).foldl
    (fun r k => AddServiceVIPToName r k.vip k.protocol svc.ns svc.name) reg

/-- The registry effect of `unidlingController.onServiceDelete`: delete
every derived (vip, protocol) key of the (old) service. -/
def onServiceDeleteRegistry (reg : Registry) (svc : Service) : Registry :=
  (derivedKeys svc).foldl
    (fun r k => DeleteServiceVIPToName r k.vip k.protocol) reg

/-- A service watch notification as wired in `NewController`:
`AddFunc = onServiceAdd`, `UpdateFunc = onServiceDelete(old); onServiceAdd(new)`,
`DeleteFunc = onServiceDelete`. -/
inductive SvcEvent where
  | add (svc : Service)
  | update (old new : Service)
  | delete (svc : Service)
deriving Repr

/-- Registry after one watch notification, following the `NewController`
handler wiring. -/
def applyEvent (reg : Registry) (e : SvcEvent) : Registry :=
  match e with
  | .add svc => onServiceAddRegistry reg svc
  | .update old new => onServiceAddRegistry (onServiceDeleteRegistry reg old) new
  | .delete svc => onServiceDeleteRegistry reg svc

/-- Registry after a sequence of watch notifications. -/
def applyEvents (reg : Registry) (es : List SvcEvent) : Registry :=
  es.foldl applyEvent reg

/-- Ghost state: the set of currently existing workloads, by identity. -/
abbrev Store := NamespacedName → Option Service

/-- The existing-workload state after one watch notification. -/
def applyEventStore (st : Store) (e : SvcEvent) : Store :=
  match e with
  | .add svc => fun r => if r = ⟨svc.ns, svc.name⟩ then some svc else st r
  | .update _ new => fun r => if r = ⟨new.ns, new.name⟩ then some new else st r
  | .delete svc => fun r => if r = ⟨svc.ns, svc.name⟩ then none else st r

/-- The existing-workload state after a sequence of notifications. -/
def applyEventsStore (st : Store) (es : List SvcEvent) : Store :=
  es.foldl applyEventStore st

/-- What a well-behaved watch delivers relative to the current state: an
add for an unknown workload, an update whose old object is the stored
one (same identity as the new object), a delete of the stored object. -/
def eventOk (st : Store) (e : SvcEvent) : Prop :=
  match e with
  | .add svc => st ⟨svc.ns, svc.name⟩ = none
  | .update old new =>
      st ⟨old.ns, old.name⟩ = some old ∧ old.ns = new.ns ∧ old.name = new.name
  | .delete svc => st ⟨svc.ns, svc.name⟩ = some svc

/-- A consistent watch trace: each notification is well-behaved relative
to the state produced by its predecessors. -/
def eventsConsistent : Store → List SvcEvent → Prop
  | _, [] => True
  | st, e :: es => eventOk st e ∧ eventsConsistent (applyEventStore st e) es

/-- Every stored workload is filed under its own identity. -/
def storeWF (st : Store) : Prop :=
  ∀ r svc, st r = some svc → r = ⟨svc.ns, svc.name⟩

/-- No two distinct existing workloads derive a common (vip, protocol)
key. -/
def storeDisjoint (st : Store) : Prop :=
  ∀ r₁ r₂ s₁ s₂, r₁ ≠ r₂ → st r₁ = some s₁ → st r₂ = some s₂ →
    ∀ k, k ∈ derivedKeys s₁ → k ∉ derivedKeys s₂

/-- `r` owns key `k` according to the current workload state: some
existing workload filed under `r` derives `k`. -/
def specOwner (st : Store) (k : ServiceVIPKey) (r : NamespacedName) : Prop :=
  ∃ svc, st r = some svc ∧ k ∈ derivedKeys svc

/-- The registry contains exactly the entries derivable from the current
workload state. -/
def registryMatches (reg : Registry) (st : Store) : Prop :=
  ∀ k r, reg k = some r ↔ specOwner st k r

/-- A consistent watch trace along which the workload state additionally
keeps derived keys disjoint across distinct workloads after every step. -/
def goodTrace : Store → List SvcEvent → Prop
  | _, [] => True
  | st, e :: es =>
      eventOk st e ∧ storeDisjoint (applyEventStore st e) ∧
        goodTrace (applyEventStore st e) es

/-- An OVN southbound `Controller_Event` row as read by the bridge: only
the `event_info` column is consulted by `handleLbEmptyBackendsEvent`
(`Run` already filtered on `event_type == empty_lb_backends`). -/
structure ControllerEvent where
  eventInfo : AnnMap
deriving DecidableEq, Repr

/-- The protocol selection of `handleLbEmptyBackendsEvent`:
`event.EventInfo["protocol"]` (empty string when absent), UDP on exact
string "udp", SCTP on exact "sctp", TCP otherwise. -/
def extractProtocol (info : AnnMap) : Protocol :=
  let proto := (lookupAnn info "protocol").getD ""
  if proto = "udp" then Protocol.UDP
  else if proto = "sctp" then Protocol.SCTP
  else Protocol.TCP

/-- Outcome of handling one empty-LB-backends event: whether the event row
was deleted from the southbound store, the NeedPods events recorded
against services, and the error returned to `Run`. -/
structure HandleResult where
  deleted : Bool
  signals : List NamespacedName
  err : Option String
deriving DecidableEq, Repr

/-- `handleLbEmptyBackendsEvent` from the source.  `deleteOk` is the
outcome of the southbound delete transaction (Where/Delete, Transact,
CheckOperationResults), issued first; on its failure the error is
returned.  Then the `vip` field is read: when absent the function
returns `err`, which is nil at that point (no signal).  Otherwise the
protocol is extracted, the registry consulted, and on a hit one NeedPods
event is recorded for the owning service. -/
def handleLbEmptyBackendsEvent (deleteOk : Bool) (reg : Registry)
    (event : ControllerEvent) : HandleResult :=
  if !deleteOk then
    { deleted := false, signals := [], err := some "transact error" }
  else
    match lookupAnn event.eventInfo "vip" with
    | none => { deleted := true, signals := [], err := none }
    | some vip =>
      let protocol := extractProtocol event.eventInfo
      match GetServiceVIPToName reg vip protocol with
      | some serviceName => { deleted := true, signals := [serviceName], err := none }
      | none => { deleted := true, signals := [], err := none }

/-! ### Helper lemmas about the annotation-map primitives -/

theorem lookupAnn_setAnn (a : AnnMap) (k v k' : String) :
    lookupAnn (setAnn a k v) k' = if k' = k then some v else lookupAnn a k' := by
  induction a with
  | nil =>
    by_cases h : k' = k
    · simp [setAnn, lookupAnn, h]
    · have h2 : ¬ k = k' := fun hh => h hh.symm
      simp [setAnn, lookupAnn, h, h2]
  | cons p rest ih =>
    by_cases hp : p.1 = k
    · by_cases h : k' = k
      · simp [setAnn, lookupAnn, hp, h]
      · have h2 : ¬ k = k' := fun hh => h hh.symm
        simp [setAnn, lookupAnn, hp, h, h2]
    · by_cases hq : p.1 = k'
      · have h : ¬ k' = k := fun hh => hp (hq.trans hh)
        simp [setAnn, lookupAnn, hp, hq, h]
      · simp [setAnn, lookupAnn, hp, hq, ih]

theorem annHasIdleAt_setAnn (a : AnnMap) (k v : String) :
    annHasIdleAt (setAnn a k v) =
      (annHasIdleAt a || strEndsWith k OvnServiceIdledSuffix) := by
  induction a with
  | nil => simp [annHasIdleAt, setAnn]
  | cons p rest ih =>
    simp only [setAnn, beq_iff_eq]
    by_cases hp : p.1 = k
    · simp only [hp, if_true, annHasIdleAt, List.any_cons] at *
      cases hke : strEndsWith k OvnServiceIdledSuffix <;> simp [hke, hp]
    · simp only [hp, if_false, annHasIdleAt, List.any_cons] at *
      rw [ih]
      cases strEndsWith p.1 OvnServiceIdledSuffix <;> simp

/-! ### C3 — protocol extraction -/

/-- C3 (counterexample): the claim says `udp` is matched
case-insensitively, but only the exact lowercase value is matched — the
payload value "UDP", equal to "udp" up to case, is extracted as TCP. -/
theorem protocol_uppercase_udp_gives_tcp :
    extractProtocol [("protocol", "udp")] = Protocol.UDP ∧
      extractProtocol [("protocol", "UDP")] = Protocol.TCP ∧
      extractProtocol [("protocol", "SCTP")] = Protocol.TCP := by
  refine ⟨?_, ?_, ?_⟩ <;> rfl

/-- C3 (amended): the protocol extracted from an event payload is UDP
exactly when the `protocol` field is the exact string "udp", SCTP exactly
when it is the exact string "sctp", and TCP when the field is absent or
holds any other value; the comparison is case-sensitive. -/
theorem protocol_extraction_exact_lowercase (info : AnnMap) :
    extractProtocol info =
      if lookupAnn info "protocol" = some "udp" then Protocol.UDP
      else if lookupAnn info "protocol" = some "sctp" then Protocol.SCTP
      else Protocol.TCP := by
  unfold extractProtocol
  cases h : lookupAnn info "protocol" with
  | none => simp
  | some p =>
    simp only [Option.getD_some]
    by_cases hu : p = "udp"
    · simp [hu]
    · by_cases hs : p = "sctp" <;> simp [hu, hs]

/-! ### C7 — GetIdleStatus -/

/-- C7 (counterexample): on a workload whose status annotation stores a
value outside the three-value enum, `GetIdleStatus` returns that foreign
value, not one of `Idle`, `GracePeriod`, `NotIdle`. -/
theorem get_idle_status_returns_foreign_value :
    GetIdleStatus
        { ns := "ns", name := "svc", typeHasClusterIP := true,
          clusterIPSet := true, clusterIPs := [], ports := [],
          annotations := some [(statusAnnotationKey, "Bogus")] } = "Bogus" ∧
      ("Bogus" ≠ StatusIdle ∧ "Bogus" ≠ StatusGracePeriod ∧
        "Bogus" ≠ StatusNotIdle) := by
  constructor
  · rfl
  · refine ⟨?_, ?_, ?_⟩ <;> decide

/-- C7 (amended): `GetIdleStatus` returns `NotIdle` when the status
annotation is absent (including a nil annotation map), and otherwise
returns the stored annotation value verbatim. -/
theorem get_idle_status_verbatim (svc : Service) :
    GetIdleStatus svc =
      (svc.annotations.bind (fun anns => lookupAnn anns statusAnnotationKey)).getD
        StatusNotIdle := by
  cases h : svc.annotations with
  | none => simp [GetIdleStatus, h]
  | some anns =>
    cases h2 : lookupAnn anns statusAnnotationKey with
    | none => simp [GetIdleStatus, h, h2]
    | some s => simp [GetIdleStatus, h, h2]

/-! ### C9 — grace-period write failure leaves the delay queue alone -/

/-- C9: when the `SetAnnotationsOnService` call inside
`markServiceAsGracePeriod` fails, the function reports the error, the
stored service is unchanged, no annotation write happens, and nothing is
added to the grace-period delay queue. -/
theorem grace_period_queue_unchanged_on_write_error (svc : Service) :
    (markServiceAsGracePeriod false svc).queued = [] ∧
      (markServiceAsGracePeriod false svc).writes = [] ∧
      (markServiceAsGracePeriod false svc).err ≠ none ∧
      (markServiceAsGracePeriod false svc).svc = svc := by
  simp [markServiceAsGracePeriod]

/-! ### C8 — missing `vip` field -/

/-- C8: an empty-LB-backends event with no `vip` field is still
acknowledged (the southbound delete transaction runs and, succeeding,
removes the record), records no NeedPods signal, and returns no error —
the code's `return err` at that point returns the nil error from the
transaction check. -/
theorem missing_vip_acknowledged_no_signal_no_error (reg : Registry)
    (event : ControllerEvent)
    (h : lookupAnn event.eventInfo "vip" = none) :
    handleLbEmptyBackendsEvent true reg event =
      { deleted := true, signals := [], err := none } := by
  simp [handleLbEmptyBackendsEvent, h]

/-- C8 witness: a concrete event with an empty payload. -/
theorem missing_vip_acknowledged_witness :
    handleLbEmptyBackendsEvent true (fun _ => none) ⟨[]⟩ =
      { deleted := true, signals := [], err := none } :=
  missing_vip_acknowledged_no_signal_no_error (fun _ => none) ⟨[]⟩ rfl

/-! ### C4 — event handling on registry hit and miss -/

/-- C4: handling an empty-LB-backends event whose (vip, protocol)
resolves in the registry deletes the event record (the delete transaction
runs first and succeeds) and records exactly one NeedPods signal for the
owning service; on a registry miss the deletion still happens and no
signal is recorded. -/
theorem empty_lb_event_signal_on_hit_and_miss (reg : Registry)
    (event : ControllerEvent) (vip : String)
    (hvip : lookupAnn event.eventInfo "vip" = some vip) :
    (∀ ref, GetServiceVIPToName reg vip (extractProtocol event.eventInfo) = some ref →
        handleLbEmptyBackendsEvent true reg event =
          { deleted := true, signals := [ref], err := none }) ∧
      (GetServiceVIPToName reg vip (extractProtocol event.eventInfo) = none →
        handleLbEmptyBackendsEvent true reg event =
          { deleted := true, signals := [], err := none }) := by
  constructor
  · intro ref href
    simp [handleLbEmptyBackendsEvent, hvip, href]
  · intro hmiss
    simp [handleLbEmptyBackendsEvent, hvip, hmiss]

/-- C4 witness: the spec's Scenario 6 — vip "10.0.0.5:80", protocol
"udp", registry owning entry {ns, svc}; exactly one signal results. -/
theorem empty_lb_event_signal_witness :
    handleLbEmptyBackendsEvent true
        (AddServiceVIPToName (fun _ => none) "10.0.0.5:80" Protocol.UDP "ns" "svc")
        ⟨[("vip", "10.0.0.5:80"), ("protocol", "udp")]⟩ =
      { deleted := true, signals := [⟨"ns", "svc"⟩], err := none } :=
  (empty_lb_event_signal_on_hit_and_miss
      (AddServiceVIPToName (fun _ => none) "10.0.0.5:80" Protocol.UDP "ns" "svc")
      ⟨[("vip", "10.0.0.5:80"), ("protocol", "udp")]⟩ "10.0.0.5:80" rfl).1
    ⟨"ns", "svc"⟩ (by decide)

/-! ### C10 — markServiceAsNotIdle case analysis -/

/-- C10: `markServiceAsNotIdle` is a no-op when the annotation map is nil
or the status annotation is absent, a no-op when the stored status is
exactly `Idle` or exactly `NotIdle`, and writes `NotIdle` for every other
stored value — including values outside the three-value enum. -/
theorem mark_not_idle_characterization (svc : Service) :
    markServiceAsNotIdle true svc =
      match svc.annotations with
      | none => { svc := svc, queued := [], writes := [], err := none }
      | some anns =>
        match lookupAnn anns statusAnnotationKey with
        | none => { svc := svc, queued := [], writes := [], err := none }
        | some status =>
          if status = StatusIdle ∨ status = StatusNotIdle then
            { svc := svc, queued := [], writes := [], err := none }
          else
            { svc := applyWrite svc statusAnnotationKey StatusNotIdle
              queued := []
              writes := [(statusAnnotationKey, StatusNotIdle)]
              err := none } := by
  cases h : svc.annotations with
  | none => simp [markServiceAsNotIdle, h]
  | some anns =>
    cases h2 : lookupAnn anns statusAnnotationKey with
    | none => simp [markServiceAsNotIdle, h, h2]
    | some status =>
      by_cases hni : status = StatusNotIdle
      · simp [markServiceAsNotIdle, h, h2, hni]
      · by_cases hi : status = StatusIdle <;>
          simp [markServiceAsNotIdle, h, h2, hni, hi]

/-! ### C1 — marker true→false always writes GracePeriod -/

/-- Concrete old service for the C1 scenario: idle-request marker present
while the stored status is `NotIdle`. -/
def svcC1old : Service :=
  { ns := "ns", name := "svc", typeHasClusterIP := true, clusterIPSet := true,
    clusterIPs := ["10.0.0.5"], ports := [(80, Protocol.TCP)],
    annotations := some [("app/idled-at", "2021-01-01"),
                         (statusAnnotationKey, StatusNotIdle)] }

/-- Concrete new service for the C1 scenario: the marker was removed, the
stored status is still `NotIdle`. -/
def svcC1new : Service :=
  { svcC1old with annotations := some [(statusAnnotationKey, StatusNotIdle)] }

/-- C1 (counterexample): a marker true→false update while the stored
status is `NotIdle` is claimed to be a no-op, but the code writes
`GracePeriod` and schedules a grace timer. -/
theorem grace_period_written_despite_not_idle_status :
    GetIdleStatus svcC1new = StatusNotIdle ∧
      hasIdleAt (some svcC1old) = true ∧
      hasIdleAt (some svcC1new) = false ∧
      (onServiceUpdate true svcC1old svcC1new).writes =
        [(statusAnnotationKey, StatusGracePeriod)] ∧
      (onServiceUpdate true svcC1old svcC1new).queued = ["ns/svc"] := by
  refine ⟨?_, ?_, ?_, ?_, ?_⟩ <;> decide

/-- C1 (amended): when a workload update changes the idle-request marker
from true to false, the controller unconditionally calls
`markServiceAsGracePeriod`: it writes `GracePeriod` and schedules a grace
timer regardless of the stored status. -/
theorem grace_period_write_unconditional_on_unidle (old new : Service)
    (h1 : hasIdleAt (some old) = true) (h2 : hasIdleAt (some new) = false) :
    (∀ writeOk, onServiceUpdate writeOk old new = markServiceAsGracePeriod writeOk new) ∧
      (onServiceUpdate true old new).writes = [(statusAnnotationKey, StatusGracePeriod)] ∧
      (onServiceUpdate true old new).queued = [metaNamespaceKey new] := by
  have key : ∀ writeOk, onServiceUpdate writeOk old new = markServiceAsGracePeriod writeOk new := by
    intro writeOk
    simp [onServiceUpdate, h1, h2]
  refine ⟨key, ?_, ?_⟩ <;> simp [key true, markServiceAsGracePeriod]

/-- C1 witness: the amended theorem applied to the concrete scenario. -/
theorem grace_period_write_unconditional_witness :
    (onServiceUpdate true svcC1old svcC1new).queued = [metaNamespaceKey svcC1new] :=
  (grace_period_write_unconditional_on_unidle svcC1old svcC1new
    (by decide) (by decide)).2.2

/-! ### C2 — grace-timer expiry -/

/-- Concrete service for the C2 scenario: the idle-request marker is back
(the workload was re-idled during the grace window) but the stored status
is still `GracePeriod`. -/
def svcC2 : Service :=
  { ns := "ns", name := "svc", typeHasClusterIP := true, clusterIPSet := true,
    clusterIPs := ["10.0.0.5"], ports := [(80, Protocol.TCP)],
    annotations := some [("app/idled-at", "2021-01-01"),
                         (statusAnnotationKey, StatusGracePeriod)] }

/-- C2 (counterexample): at expiry the code never consults the
idle-request marker — a found workload carrying the marker with stored
status `GracePeriod` still gets `NotIdle` written, where the claim
requires no write. -/
theorem grace_expiry_writes_despite_idle_marker :
    hasIdleAt (some svcC2) = true ∧
      (processGraceKey true (some svcC2)).2.1 =
        [(statusAnnotationKey, StatusNotIdle)] := by
  refine ⟨?_, ?_⟩ <;> decide

/-- C2 (amended): on grace-timer expiry a missing workload is dropped
silently without error; for a found workload no annotation is written
exactly when `GetIdleStatus` is `Idle` or `NotIdle` (nil map, absent
status, or stored status Idle/NotIdle) — the idle-request marker is not
consulted — and otherwise the single write of `NotIdle` is performed,
with no error. -/
theorem grace_expiry_behaviour (lookup : Option Service) :
    processGraceKey true none = (none, [], none) ∧
      (∀ svc, lookup = some svc →
        (((processGraceKey true lookup).2.1 = [] ↔
            (GetIdleStatus svc = StatusIdle ∨ GetIdleStatus svc = StatusNotIdle)) ∧
          ((processGraceKey true lookup).2.1 ≠ [] →
            (processGraceKey true lookup).2.1 = [(statusAnnotationKey, StatusNotIdle)]) ∧
          (processGraceKey true lookup).2.2 = none)) := by
  constructor
  · rfl
  · intro svc hl
    subst hl
    cases h : svc.annotations with
    | none =>
      refine ⟨?_, ?_, ?_⟩ <;>
        simp [processGraceKey, markServiceAsNotIdle, GetIdleStatus, h, StatusIdle, StatusNotIdle]
    | some anns =>
      cases h2 : lookupAnn anns statusAnnotationKey with
      | none =>
        refine ⟨?_, ?_, ?_⟩ <;>
          simp [processGraceKey, markServiceAsNotIdle, GetIdleStatus, h, h2,
            StatusIdle, StatusNotIdle]
      | some status =>
        by_cases hni : status = StatusNotIdle
        · refine ⟨?_, ?_, ?_⟩ <;>
            simp [processGraceKey, markServiceAsNotIdle, GetIdleStatus, h, h2, hni]
        · by_cases hi : status = StatusIdle
          · refine ⟨?_, ?_, ?_⟩ <;>
              simp [processGraceKey, markServiceAsNotIdle, GetIdleStatus, h, h2, hni, hi]
          · refine ⟨?_, ?_, ?_⟩ <;>
              simp [processGraceKey, markServiceAsNotIdle, GetIdleStatus, h, h2, hni, hi]

/-- C2 witness: the amended theorem's found-workload clause at the
concrete re-idled service. -/
theorem grace_expiry_behaviour_witness :
    (processGraceKey true (some svcC2)).2.1 = [] ↔
      (GetIdleStatus svcC2 = StatusIdle ∨ GetIdleStatus svcC2 = StatusNotIdle) :=
  ((grace_expiry_behaviour (some svcC2)).2 svcC2 rfl).1

/-! ### C6 — idle / unidle / re-idle round trip -/

theorem markIdleIfNeeded_sets_idle (svc : Service) :
    GetIdleStatus (markServiceAsIdleIfNeeded true svc).svc = StatusIdle := by
  cases ha : svc.annotations with
  | none =>
    simp [markServiceAsIdleIfNeeded, ha, GetIdleStatus, applyWrite, lookupAnn_setAnn]
  | some anns =>
    cases hl : lookupAnn anns statusAnnotationKey with
    | none =>
      simp [markServiceAsIdleIfNeeded, ha, hl, GetIdleStatus, applyWrite, lookupAnn_setAnn]
    | some s =>
      by_cases hs : s = StatusIdle
      · simp [markServiceAsIdleIfNeeded, ha, hl, hs, GetIdleStatus]
      · simp [markServiceAsIdleIfNeeded, ha, hl, hs, GetIdleStatus, applyWrite, lookupAnn_setAnn]

theorem markNotIdle_noop_of_idle (svc : Service)
    (h : GetIdleStatus svc = StatusIdle) :
    (markServiceAsNotIdle true svc).writes = [] := by
  cases ha : svc.annotations with
  | none => simp [markServiceAsNotIdle, ha]
  | some anns =>
    cases hl : lookupAnn anns statusAnnotationKey with
    | none => simp [markServiceAsNotIdle, ha, hl]
    | some s =>
      have hs : s = StatusIdle := by simpa [GetIdleStatus, ha, hl] using h
      have hne : (StatusIdle == StatusNotIdle) = false := by decide
      simp [markServiceAsNotIdle, ha, hl, hs, hne]

/-- C6: starting from a workload with the idle-request marker and stored
status `Idle`, a marker true→false update (which writes `GracePeriod` and
schedules the grace timer) followed by a marker false→true update before
the timer fires leaves the stored status `Idle`, and the later timer
expiry for that workload performs no annotation write. -/
theorem idle_unidle_idle_round_trip (svc0 svc1 svc3 : Service) (a0 a1 a3 : AnnMap)
    (h0 : svc0.annotations = some a0)
    (hm0 : annHasIdleAt a0 = true)
    (_hst0 : lookupAnn a0 statusAnnotationKey = some StatusIdle)
    (h1 : svc1 = { svc0 with annotations := some a1 })
    (hm1 : annHasIdleAt a1 = false)
    (h3 : svc3 = { (onServiceUpdate true svc0 svc1).svc with annotations := some a3 })
    (hm3 : annHasIdleAt a3 = true) :
    (onServiceUpdate true svc0 svc1).writes = [(statusAnnotationKey, StatusGracePeriod)] ∧
      (onServiceUpdate true svc0 svc1).queued = [metaNamespaceKey svc1] ∧
      GetIdleStatus (onServiceUpdate true (onServiceUpdate true svc0 svc1).svc svc3).svc =
        StatusIdle ∧
      (processGraceKey true
          (some (onServiceUpdate true (onServiceUpdate true svc0 svc1).svc svc3).svc)).2.1 =
        [] := by
  have hio : hasIdleAt (some svc0) = true := by simp [hasIdleAt, h0, hm0]
  have hin : hasIdleAt (some svc1) = false := by simp [hasIdleAt, h1, hm1]
  have e1 : onServiceUpdate true svc0 svc1 = markServiceAsGracePeriod true svc1 := by
    simp [onServiceUpdate, hio, hin]
  have hkey : strEndsWith statusAnnotationKey OvnServiceIdledSuffix = false := by decide
  have hsvc2ann : (onServiceUpdate true svc0 svc1).svc.annotations =
      some (setAnn a1 statusAnnotationKey StatusGracePeriod) := by
    rw [e1]
    simp [markServiceAsGracePeriod, applyWrite, h1]
  have h2marker : hasIdleAt (some (onServiceUpdate true svc0 svc1).svc) = false := by
    simp [hasIdleAt, hsvc2ann, annHasIdleAt_setAnn, hm1, hkey]
  have h3marker : hasIdleAt (some svc3) = true := by simp [hasIdleAt, h3, hm3]
  have e3 : onServiceUpdate true (onServiceUpdate true svc0 svc1).svc svc3 =
      markServiceAsIdleIfNeeded true svc3 := by
    simp [onServiceUpdate, h2marker, h3marker]
  have hfinal : GetIdleStatus
      (onServiceUpdate true (onServiceUpdate true svc0 svc1).svc svc3).svc = StatusIdle := by
    rw [e3]; exact markIdleIfNeeded_sets_idle svc3
  refine ⟨?_, ?_, hfinal, ?_⟩
  · simp [e1, markServiceAsGracePeriod]
  · simp [e1, markServiceAsGracePeriod]
  · simpa [processGraceKey] using
      markNotIdle_noop_of_idle
        (onServiceUpdate true (onServiceUpdate true svc0 svc1).svc svc3).svc hfinal

/-- Concrete annotations for the C6 witness scenario. -/
def a0C6 : AnnMap := [("app/idled-at", "t"), (statusAnnotationKey, StatusIdle)]

/-- Annotations after the external un-idle edit (marker removed). -/
def a1C6 : AnnMap := [(statusAnnotationKey, StatusIdle)]

/-- Annotations after the external re-idle edit (marker back). -/
def a3C6 : AnnMap := [("app/idled-at", "t"), (statusAnnotationKey, StatusGracePeriod)]

/-- Initial concrete service for the C6 witness. -/
def svcC6a : Service :=
  { ns := "ns", name := "svc", typeHasClusterIP := true, clusterIPSet := true,
    clusterIPs := ["10.0.0.5"], ports := [(80, Protocol.TCP)],
    annotations := some a0C6 }

/-- The C6 witness service after the un-idle edit. -/
def svcC6b : Service := { svcC6a with annotations := some a1C6 }

/-- The C6 witness service after the re-idle edit, applied to the stored
object produced by the first controller step. -/
def svcC6c : Service :=
  { (onServiceUpdate true svcC6a svcC6b).svc with annotations := some a3C6 }

/-- C6 witness: the round trip at the concrete scenario ends with status
`Idle`. -/
theorem idle_unidle_idle_round_trip_witness :
    GetIdleStatus (onServiceUpdate true (onServiceUpdate true svcC6a svcC6b).svc svcC6c).svc =
      StatusIdle :=
  (idle_unidle_idle_round_trip svcC6a svcC6b svcC6c a0C6 a1C6 a3C6
    rfl (by decide) (by decide) rfl (by decide) rfl (by decide)).2.2.1

/-! ### C5 — VIP registry vs. workload state -/

theorem foldl_add_lookup (ks : List ServiceVIPKey) (reg : Registry) (ns name : String)
    (k : ServiceVIPKey) :
    (ks.foldl (fun r kk => AddServiceVIPToName r kk.vip kk.protocol ns name) reg) k =
      if k ∈ ks then some ⟨ns, name⟩ else reg k := by
  induction ks generalizing reg with
  | nil => simp
  | cons kk ks ih =>
    simp only [List.foldl_cons, ih, List.mem_cons]
    by_cases hk : k ∈ ks
    · simp [hk]
    · by_cases he : k = kk
      · simp [hk, he, AddServiceVIPToName]
      · simp [hk, he, AddServiceVIPToName]

theorem foldl_delete_lookup (ks : List ServiceVIPKey) (reg : Registry)
    (k : ServiceVIPKey) :
    (ks.foldl (fun r kk => DeleteServiceVIPToName r kk.vip kk.protocol) reg) k =
      if k ∈ ks then none else reg k := by
  induction ks generalizing reg with
  | nil => simp
  | cons kk ks ih =>
    simp only [List.foldl_cons, ih, List.mem_cons]
    by_cases hk : k ∈ ks
    · simp [hk]
    · by_cases he : k = kk
      · simp [hk, he, DeleteServiceVIPToName]
      · simp [hk, he, DeleteServiceVIPToName]

theorem onServiceAddRegistry_lookup (reg : Registry) (svc : Service) (k : ServiceVIPKey) :
    onServiceAddRegistry reg svc k =
      if k ∈ derivedKeys svc then some ⟨svc.ns, svc.name⟩ else reg k :=
  foldl_add_lookup (derivedKeys svc) reg svc.ns svc.name k

theorem onServiceDeleteRegistry_lookup (reg : Registry) (svc : Service) (k : ServiceVIPKey) :
    onServiceDeleteRegistry reg svc k =
      if k ∈ derivedKeys svc then none else reg k :=
  foldl_delete_lookup (derivedKeys svc) reg k

theorem storeDisjoint_restrict (st st' : Store) (ref : NamespacedName)
    (h : storeDisjoint st)
    (hst' : ∀ r, st' r = if r = ref then none else st r) :
    storeDisjoint st' := by
  intro r₁ r₂ s₁ s₂ hne h1 h2
  rw [hst'] at h1 h2
  by_cases e1 : r₁ = ref
  · simp [e1] at h1
  · rw [if_neg e1] at h1
    by_cases e2 : r₂ = ref
    · simp [e2] at h2
    · rw [if_neg e2] at h2
      exact h r₁ r₂ s₁ s₂ hne h1 h2

theorem registryMatches_delete (reg : Registry) (st st' : Store) (svc : Service)
    (hdisj : storeDisjoint st) (hm : registryMatches reg st)
    (hst : st ⟨svc.ns, svc.name⟩ = some svc)
    (hst' : ∀ r, st' r = if r = ⟨svc.ns, svc.name⟩ then none else st r) :
    registryMatches (onServiceDeleteRegistry reg svc) st' := by
  intro k r
  rw [onServiceDeleteRegistry_lookup]
  by_cases hk : k ∈ derivedKeys svc
  · rw [if_pos hk]
    constructor
    · intro h; exact Option.noConfusion h
    · rintro ⟨s, hs, hks⟩
      rw [hst'] at hs
      by_cases hr : r = ⟨svc.ns, svc.name⟩
      · simp [hr] at hs
      · rw [if_neg hr] at hs
        exact absurd hk (hdisj r ⟨svc.ns, svc.name⟩ s svc hr hs hst k hks)
  · rw [if_neg hk, hm k r]
    constructor
    · rintro ⟨s, hs, hks⟩
      have hr : r ≠ ⟨svc.ns, svc.name⟩ := by
        intro he
        rw [he, hst] at hs
        injection hs with h2
        exact hk (h2 ▸ hks)
      exact ⟨s, by rw [hst', if_neg hr]; exact hs, hks⟩
    · rintro ⟨s, hs, hks⟩
      rw [hst'] at hs
      by_cases hr : r = ⟨svc.ns, svc.name⟩
      · simp [hr] at hs
      · rw [if_neg hr] at hs
        exact ⟨s, hs, hks⟩

theorem registryMatches_add (reg : Registry) (st st' : Store) (svc : Service)
    (hm : registryMatches reg st)
    (hnone : st ⟨svc.ns, svc.name⟩ = none)
    (hdisj' : storeDisjoint st')
    (hst' : ∀ r, st' r = if r = ⟨svc.ns, svc.name⟩ then some svc else st r) :
    registryMatches (onServiceAddRegistry reg svc) st' := by
  intro k r
  rw [onServiceAddRegistry_lookup]
  by_cases hk : k ∈ derivedKeys svc
  · rw [if_pos hk]
    constructor
    · intro h
      injection h with h2
      exact ⟨svc, by rw [hst', if_pos h2.symm], hk⟩
    · rintro ⟨s, hs, hks⟩
      by_cases hr : r = ⟨svc.ns, svc.name⟩
      · rw [hr]
      · have href : st' ⟨svc.ns, svc.name⟩ = some svc := by rw [hst']; simp
        exact absurd hk (hdisj' r ⟨svc.ns, svc.name⟩ s svc hr hs href k hks)
  · rw [if_neg hk, hm k r]
    constructor
    · rintro ⟨s, hs, hks⟩
      have hr : r ≠ ⟨svc.ns, svc.name⟩ := by
        intro he
        rw [he, hnone] at hs
        exact Option.noConfusion hs
      exact ⟨s, by rw [hst', if_neg hr]; exact hs, hks⟩
    · rintro ⟨s, hs, hks⟩
      rw [hst'] at hs
      by_cases hr : r = ⟨svc.ns, svc.name⟩
      · rw [if_pos hr] at hs
        injection hs with h2
        exact absurd (h2 ▸ hks) hk
      · rw [if_neg hr] at hs
        exact ⟨s, hs, hks⟩

/-- C5 (amended): along any well-behaved watch trace in which no two
coexisting workloads ever derive a common (vip, protocol) key, the
registry after the trace contains exactly the entries derivable from the
most recent spec of each still-existing workload with a set cluster
address (an update removes the old service's entries, then inserts the
new ones, per the `NewController` handler wiring embodied in
`applyEvent`). -/
theorem registry_matches_store_of_disjoint_trace (es : List SvcEvent) :
    ∀ (reg : Registry) (st : Store), storeDisjoint st → registryMatches reg st →
      goodTrace st es →
      registryMatches (applyEvents reg es) (applyEventsStore st es) := by
  induction es with
  | nil =>
    intro reg st _ hm _
    simpa [applyEvents, applyEventsStore] using hm
  | cons e es ih =>
    intro reg st hdisj hm htr
    obtain ⟨hok, hdisj', htr'⟩ := htr
    have step : registryMatches (applyEvent reg e) (applyEventStore st e) := by
      cases e with
      | add svc =>
        exact registryMatches_add reg st (applyEventStore st (.add svc)) svc
          hm hok hdisj' (fun r => rfl)
      | update old new =>
        obtain ⟨hold, hns, hname⟩ := hok
        have hrefs : (⟨new.ns, new.name⟩ : NamespacedName) = ⟨old.ns, old.name⟩ := by
          rw [hns, hname]
        have hdel : registryMatches (onServiceDeleteRegistry reg old)
            (fun r => if r = ⟨old.ns, old.name⟩ then none else st r) :=
          registryMatches_delete reg st
            (fun r => if r = ⟨old.ns, old.name⟩ then none else st r) old
            hdisj hm hold (fun r => rfl)
        have hmid_none :
            (fun r => if r = ⟨old.ns, old.name⟩ then none else st r)
              (⟨new.ns, new.name⟩ : NamespacedName) = none := by
          rw [hrefs]; simp
        exact registryMatches_add (onServiceDeleteRegistry reg old)
          (fun r => if r = ⟨old.ns, old.name⟩ then none else st r)
          (applyEventStore st (.update old new)) new
          hdel hmid_none hdisj'
          (by
            intro r
            by_cases hr : r = ⟨new.ns, new.name⟩
            · simp [applyEventStore, hr]
            · have hr2 : r ≠ ⟨old.ns, old.name⟩ := fun he => hr (he.trans hrefs.symm)
              simp [applyEventStore, hr, hr2])
      | delete svc =>
        exact registryMatches_delete reg st (applyEventStore st (.delete svc)) svc
          hdisj hm hok (fun r => rfl)
    exact ih (applyEvent reg e) (applyEventStore st e) hdisj' step htr'

/-- First workload for the C5 counterexample. -/
def svcA : Service :=
  { ns := "a", name := "svc", typeHasClusterIP := true, clusterIPSet := true,
    clusterIPs := ["10.0.0.5"], ports := [(80, Protocol.TCP)], annotations := none }

/-- Second workload for the C5 counterexample, in another namespace but
claiming the same cluster address and port. -/
def svcB : Service := { svcA with ns := "b" }

/-- The (vip, protocol) key both counterexample workloads derive. -/
def sharedKey : ServiceVIPKey := ⟨"10.0.0.5:80", Protocol.TCP⟩

/-- The C5 counterexample trace: add both sharers, then delete the first. -/
def esC5 : List SvcEvent := [SvcEvent.add svcA, SvcEvent.add svcB, SvcEvent.delete svcA]

/-- C5 (counterexample): after the consistent trace add A, add B,
delete A — where A and B share a derived (vip, protocol) key — the
registry lacks the entry for the still-existing workload B, because
deleting A removed the shared key outright; so the claim fails as stated
for arbitrary event sequences. -/
theorem registry_loses_entry_on_shared_vip :
    eventsConsistent (fun _ => none) esC5 ∧
      applyEvents (fun _ => none) esC5 sharedKey = none ∧
      applyEventsStore (fun _ => none) esC5 ⟨"b", "svc"⟩ = some svcB ∧
      sharedKey ∈ derivedKeys svcB := by
  refine ⟨⟨rfl, rfl, rfl, trivial⟩, ?_, ?_, ?_⟩
  · rfl
  · rfl
  · decide

/-- Concrete workload for the C5 witness trace. -/
def svcC5w : Service :=
  { ns := "ns", name := "svc", typeHasClusterIP := true, clusterIPSet := true,
    clusterIPs := ["10.0.0.5"], ports := [(80, Protocol.TCP)], annotations := none }

/-- C5 witness: the amended theorem instantiated on the one-step trace
that adds a single workload, starting from the empty registry and store. -/
theorem registry_matches_store_witness :
    registryMatches (applyEvents (fun _ => none) [SvcEvent.add svcC5w])
      (applyEventsStore (fun _ => none) [SvcEvent.add svcC5w]) :=
  registry_matches_store_of_disjoint_trace [SvcEvent.add svcC5w]
    (fun _ => none) (fun _ => none)
    (fun _ _ _ _ _ h1 _ => Option.noConfusion h1)
    (fun k r =>
      Iff.intro (fun h => Option.noConfusion h)
        (fun h => by rcases h with ⟨s, hs, _⟩; exact Option.noConfusion hs))
    ⟨rfl,
      by
        intro r₁ r₂ s₁ s₂ hne h1 h2
        simp only [applyEventStore] at h1 h2
        by_cases e1 : r₁ = (⟨svcC5w.ns, svcC5w.name⟩ : NamespacedName)
        · by_cases e2 : r₂ = (⟨svcC5w.ns, svcC5w.name⟩ : NamespacedName)
          · exact absurd (e1.trans e2.symm) hne
          · rw [if_neg e2] at h2; exact Option.noConfusion h2
        · rw [if_neg e1] at h1; exact Option.noConfusion h1,
      trivial⟩

end Unidling
